import Mathlib

/-!
Shallow embedding of the submission engine of the `luminarytrade` backend
(`src/backend/src/submitter/`): the `Submission` entity, the
`SubmitterService` creation/read API, the `StellarService` ledger client,
and the `SubmissionProcessor` job handlers.  Machine state (the TypeORM
repository and the Bull queue) is passed explicitly; asynchronous external
calls (the Stellar network) are parameters of the handler functions.
-/

/-- The `SubmissionStatus` enum of `entities/submission.entity.ts`. -/
inductive SubmissionStatus
  | pending
  | processing
  | completed
  | failed
  | retrying
deriving DecidableEq, Repr

/-- The `Submission` entity (one row of the `submissions` table).
Ids are modelled as naturals (the uuid generator is a counter), payloads as
opaque strings, timestamps as naturals.  `transactionHash` and
`errorMessage` are nullable columns, hence `Option`. -/
structure Submission where
  id : Nat
  idempotencyKey : String
  payload : String
  status : SubmissionStatus
  transactionHash : Option String
  retryCount : Nat
  maxRetries : Nat
  errorMessage : Option String
  completedAt : Option Nat
deriving DecidableEq, Repr

/-- `CreateSubmissionDto`: the creation request body. -/
structure CreateSubmissionDto where
  idempotencyKey : String
  payload : String
deriving DecidableEq, Repr

/-- A job on the `submissions` Bull queue: `submit-single` carries one
submission id, `submit-batch` a list of ids. -/
inductive JobKind
  | submitSingle (submissionId : Nat)
  | submitBatch (submissionIds : List Nat)
deriving DecidableEq, Repr

/-- Errors thrown by the service layer: `ConflictException` and
`NotFoundException`, each carrying only a message string. -/
inductive SvcError
  | conflict (msg : String)
  | notFound (msg : String)
deriving DecidableEq, Repr

/-- The persistent state the service and processor touch: the submissions
table, the queue contents, and the id generator. -/
structure ServiceState where
  store : List Submission
  queue : List JobKind
  nextId : Nat
deriving DecidableEq, Repr

/-- `repository.findOne({ where: { idempotencyKey: key } })`. -/
def findByIdempotencyKey (store : List Submission) (key : String) : Option Submission :=
  store.find? (fun s => s.idempotencyKey = key)

/-- `repository.findOne({ where: { id } })`. -/
def findById (store : List Submission) (id : Nat) : Option Submission :=
  store.find? (fun s => s.id = id)

/-- `repository.save(submission)`: replace the row with the given id. -/
def updateStore (store : List Submission) (s : Submission) : List Submission :=
  store.map (fun t => if t.id = s.id then s else t)

namespace SubmitterService

/-- The message of the `ConflictException` thrown on a duplicate key. -/
def conflictMsg (key : String) : String :=
  "Submission with idempotency key " ++ key ++ " already exists"

/-- The entity built by `repository.create(...)` in `createSubmission`:
status `PENDING`, column defaults `retryCount = 0`, `maxRetries = 3`,
nullable columns null. -/
def newSubmission (id : Nat) (dto : CreateSubmissionDto) : Submission :=
  { id := id
    idempotencyKey := dto.idempotencyKey
    payload := dto.payload
    status := .pending
    transactionHash := none
    retryCount := 0
    maxRetries := 3
    errorMessage := none
    completedAt := none }

/-- `SubmitterService.createSubmission`: look up the idempotency key; if a
record exists, throw `ConflictException` (the state is untouched);
otherwise save a new `PENDING` record and add one `submit-single` job. -/
def createSubmission (st : ServiceState) (dto : CreateSubmissionDto) :
    Except SvcError Submission × ServiceState :=
  match findByIdempotencyKey st.store dto.idempotencyKey with
  | some _ => (.error (.conflict (conflictMsg dto.idempotencyKey)), st)
  | none =>
    let submission := newSubmission st.nextId dto
    (.ok submission,
      { store := st.store ++ [submission]
        queue := st.queue ++ [.submitSingle submission.id]
        nextId := st.nextId + 1 })

/-- The `NotFoundException` message of `getSubmission`. -/
def notFoundMsg (id : Nat) : String :=
  "Submission " ++ toString id ++ " not found"

/-- `SubmitterService.getSubmission`: find by id, throw `NotFoundException`
when absent. -/
def getSubmission (st : ServiceState) (id : Nat) : Except SvcError Submission :=
  match findById st.store id with
  | some s => .ok s
  | none => .error (.notFound (notFoundMsg id))

/-- `SubmitterService.getByIdempotencyKey`: returns the `findOne` result
directly — `null` when no record matches, with no exception. -/
def getByIdempotencyKey (st : ServiceState) (key : String) : Option Submission :=
  findByIdempotencyKey st.store key

/-- `SubmitterService.listSubmissions`: with a status filter, every record
of that status; without one, `find({ take: 100 })`. -/
def listSubmissions (st : ServiceState) (status? : Option SubmissionStatus) :
    List Submission :=
  match status? with
  | some s => st.store.filter (fun x => x.status = s)
  | none => st.store.take 100

/-- The loop body sequence of `createBatch`: run `createSubmission` on each
dto in order, accumulating the created records; a thrown conflict
propagates (the loop stops, earlier writes persist); after the loop one
`submit-batch` job with all accumulated ids is enqueued. -/
def createBatchGo : ServiceState → List CreateSubmissionDto → List Submission →
    Except SvcError (List Submission) × ServiceState
  | st, [], acc =>
    (.ok acc, { st with queue := st.queue ++ [.submitBatch (acc.map (fun s => s.id))] })
  | st, dto :: rest, acc =>
    match createSubmission st dto with
    | (.ok sub, st') => createBatchGo st' rest (acc ++ [sub])
    | (.error e, st') => (.error e, st')

/-- `SubmitterService.createBatch`. -/
def createBatch (st : ServiceState) (dtos : List CreateSubmissionDto) :
    Except SvcError (List Submission) × ServiceState :=
  createBatchGo st dtos []

end SubmitterService

namespace StellarService

/-- The per-item try/catch of `submitBatch`: the hash on success, `null`
for a caught error. -/
def ledgerOutcome (r : Except String String) : Option String :=
  match r with
  | .ok hash => some hash
  | .error _ => none

/-- `StellarService.submitBatch`: call `submitTransaction` on each payload
in order; a per-item failure is caught and recorded as `null` in that
position.  The network behaviour of `submitTransaction` is the `ledger`
parameter: a hash, or a thrown error message, per payload. -/
def submitBatch (payloads : List String) (ledger : String → Except String String) :
    List (Option String) :=
  match payloads with
  | [] => []
  | p :: rest => ledgerOutcome (ledger p) :: submitBatch rest ledger

end StellarService

namespace SubmissionProcessor

/-- How `handleSingleSubmission` hands its job back to the Bull runtime:
`dropped` — the record was absent, the handler returned without any ledger
call; `completedOk` and `failedTerminal` — the handler returned normally
after persisting `COMPLETED` resp. `FAILED`; `retrySignal d` — the handler
threw `Retry needed with delay ...` carrying the computed backoff `d` in
milliseconds, so the runtime sees a failed attempt. -/
inductive StepSignal
  | dropped
  | completedOk
  | failedTerminal
  | retrySignal (delayMs : Nat)
deriving DecidableEq, Repr

/-- The Stellar call happens on every path except the missing-record drop. -/
def ledgerCalled : StepSignal → Bool
  | .dropped => false
  | _ => true

/-- The backoff computed in the retry branch:
`Math.pow(2, submission.retryCount) * 1000`, with `retryCount` already
incremented. -/
def backoffDelay (retryCount : Nat) : Nat :=
  2 ^ retryCount * 1000

/-- `SubmissionProcessor.handleSingleSubmission`, acting on the store.
Load the record (drop the job when absent); save it as `PROCESSING`; call
the ledger (`outcome` is what `stellarService.submitTransaction` did).  On
success save `COMPLETED` with the hash and `completedAt`.  On failure
increment `retryCount` and set `errorMessage` in memory; if the new count
reaches `maxRetries` save `FAILED`, otherwise set `RETRYING` in memory and
throw — the throw exits the catch block before the save statement, so in
the retry branch the store keeps the earlier `PROCESSING` row. -/
def handleSingleSubmission (store : List Submission) (submissionId : Nat)
    (outcome : Except String String) (now : Nat) :
    List Submission × StepSignal :=
  match findById store submissionId with
  | none => (store, .dropped)
  | some submission0 =>
    let submission1 := { submission0 with status := .processing }
    let store1 := updateStore store submission1
    match outcome with
    | .ok txHash =>
      let submission2 :=
        { submission1 with
            status := .completed
            transactionHash := some txHash
            completedAt := some now }
      (updateStore store1 submission2, .completedOk)
    | .error msg =>
      let submission2 :=
        { submission1 with
            retryCount := submission1.retryCount + 1
            errorMessage := some msg }
      if submission2.retryCount ≥ submission2.maxRetries then
        let submission3 := { submission2 with status := .failed }
        (updateStore store1 submission3, .failedTerminal)
      else
        (store1, .retrySignal (backoffDelay submission2.retryCount))

/-- `findByIds(submissionIds)`: the records of the given ids (absent ids
contribute nothing). -/
def findByIds (store : List Submission) (ids : List Nat) : List Submission :=
  ids.filterMap (fun i => findById store i)

/-- One iteration of the update loop of `handleBatchSubmission`: a truthy
`txHash` (non-null and non-empty, by JS truthiness) is saved as
`COMPLETED` with the hash and `completedAt`; otherwise the record is saved
as `FAILED` with the fixed error message. -/
def batchUpdateOne (sub : Submission) (txHash : Option String) (now : Nat) :
    Submission :=
  match txHash with
  | some h =>
    if h = "" then
      { sub with status := .failed, errorMessage := some "Batch submission failed" }
    else
      { sub with
          status := .completed
          transactionHash := some h
          completedAt := some now }
  | none =>
    { sub with status := .failed, errorMessage := some "Batch submission failed" }

/-- `SubmissionProcessor.handleBatchSubmission`: load the records, collect
their payloads in order, run `stellarService.submitBatch`, then save each
record according to its positional outcome. -/
def handleBatchSubmission (store : List Submission) (submissionIds : List Nat)
    (ledger : String → Except String String) (now : Nat) : List Submission :=
  let submissions := findByIds store submissionIds
  let payloads := submissions.map (fun s => s.payload)
  let txHashes := StellarService.submitBatch payloads ledger
  (submissions.zip txHashes).foldl
    (fun st p => updateStore st (batchUpdateOne p.1 p.2 now)) store

/-- Iterated redelivery of the same `submit-single` job, every ledger
attempt failing with the same message: each delivery re-runs
`handleSingleSubmission` on the store the previous one persisted. -/
def iterateFailingDeliveries (store : List Submission) (submissionId : Nat)
    (msg : String) (now : Nat) : Nat → List Submission
  | 0 => store
  | n + 1 =>
    (handleSingleSubmission (iterateFailingDeliveries store submissionId msg now n)
      submissionId (.error msg) now).1

end SubmissionProcessor

/-- The data-model invariant relating status and settlement reference:
`status == Completed` exactly when `transactionHash` is non-null. -/
def statusHashConsistent (s : Submission) : Prop :=
  s.status = .completed ↔ s.transactionHash ≠ none

instance (s : Submission) : Decidable (statusHashConsistent s) := by
  unfold statusHashConsistent; infer_instance

/-- The idempotency keys currently stored. -/
def keysOf (store : List Submission) : List String :=
  store.map (fun s => s.idempotencyKey)

/-- Whether a queued job is a `submit-batch` job. -/
def isBatchJob : JobKind → Bool
  | .submitBatch _ => true
  | .submitSingle _ => false

namespace SubmitterService

/-- A batch of creation requests is conflict-free when each request's key
is absent from the keys seen so far (stored keys plus earlier requests of
the same batch). -/
def conflictFree : List String → List CreateSubmissionDto → Prop
  | _, [] => True
  | keys, dto :: rest =>
    dto.idempotencyKey ∉ keys ∧ conflictFree (keys ++ [dto.idempotencyKey]) rest

/-- The records a conflict-free batch creates: `newSubmission` at
consecutive generated ids, one per request in order. -/
def buildSubs : Nat → List CreateSubmissionDto → List Submission
  | _, [] => []
  | n, dto :: rest => newSubmission n dto :: buildSubs (n + 1) rest

end SubmitterService

/-- Concrete fixture: a fresh `PENDING` record with key `k`. -/
def subPending1 : Submission := SubmitterService.newSubmission 1 ⟨"k", "p1"⟩

/-- `subPending1` after its job was persisted as `PROCESSING`. -/
def subProcessing1 : Submission := { subPending1 with status := .processing }

/-- Concrete fixture: `subPending1` delivered successfully (status
`COMPLETED`, hash `h1`). -/
def subCompleted1 : Submission :=
  { subPending1 with
      status := .completed
      transactionHash := some "h1"
      completedAt := some 3 }

/-- `subCompleted1` with `retryCount` already at 2 (one short of
`maxRetries`). -/
def subCompletedR2 : Submission := { subCompleted1 with retryCount := 2 }
/-- The aggregate job for exactly the given records: `handleBatchSubmission`
applied to their own id list. -/
def SubmissionProcessor.batchRun (subs : List Submission)
    (ledger : String → Except String String) (now : Nat) : List Submission :=
  SubmissionProcessor.handleBatchSubmission subs (subs.map Submission.id) ledger now

/-- Batch fixtures: three `PENDING` records with distinct ids and
payloads. -/
def sBatchA : Submission := SubmitterService.newSubmission 1 ⟨"a", "p1"⟩

/-- Second batch fixture. -/
def sBatchB : Submission := SubmitterService.newSubmission 2 ⟨"b", "p2"⟩

/-- Third batch fixture. -/
def sBatchC : Submission := SubmitterService.newSubmission 3 ⟨"c", "p3"⟩

/-- A ledger behaviour for the three-record batch: references for the
first and third payloads, a thrown (caught) error for the second. -/
def ledger3 : String → Except String String :=
  fun p =>
    if p = "p1" then .ok "h1"
    else if p = "p3" then .ok "h3"
    else .error "item failed"

deriving instance DecidableEq for Except

/-! Theorems. -/

/-- C1 counterexample: with a record under key `k` already stored,
`createSubmission` for key `k` throws a `ConflictException` carrying only a
message — no `Submission` is returned to the caller — and the state is
untouched. -/
theorem createSubmission_conflict_returns_no_record :
    (SubmitterService.createSubmission ⟨[subPending1], [], 2⟩ ⟨"k", "p2"⟩).1 =
      Except.error (SvcError.conflict
        "Submission with idempotency key k already exists") ∧
    (∀ s : Submission,
      (SubmitterService.createSubmission ⟨[subPending1], [], 2⟩ ⟨"k", "p2"⟩).1 ≠
        Except.ok s) ∧
    (SubmitterService.createSubmission ⟨[subPending1], [], 2⟩ ⟨"k", "p2"⟩).2 =
      ⟨[subPending1], [], 2⟩ := by
  refine ⟨by decide, ?_, by decide⟩
  intro s hs
  rw [show (SubmitterService.createSubmission ⟨[subPending1], [], 2⟩ ⟨"k", "p2"⟩).1 =
      Except.error (SvcError.conflict
        "Submission with idempotency key k already exists") from by decide] at hs
  exact Except.noConfusion hs

/-- C1 (amended): `createSubmission` looks up the idempotency key.  When a
record exists it throws `AlreadyExists` (with a message only, the state
unchanged, no new record stored).  When none exists it persists exactly one
new `PENDING` record and enqueues exactly one `submit-single` job carrying
that record's id. -/
theorem createSubmission_spec :
    ∀ (st : ServiceState) (dto : CreateSubmissionDto),
      (∀ s, findByIdempotencyKey st.store dto.idempotencyKey = some s →
        SubmitterService.createSubmission st dto =
          (Except.error (SvcError.conflict
            (SubmitterService.conflictMsg dto.idempotencyKey)), st)) ∧
      (findByIdempotencyKey st.store dto.idempotencyKey = none →
        SubmitterService.createSubmission st dto =
          (Except.ok (SubmitterService.newSubmission st.nextId dto),
           { store := st.store ++ [SubmitterService.newSubmission st.nextId dto]
             queue := st.queue ++ [JobKind.submitSingle st.nextId]
             nextId := st.nextId + 1 }) ∧
        (SubmitterService.newSubmission st.nextId dto).status =
          SubmissionStatus.pending ∧
        (SubmitterService.newSubmission st.nextId dto).id = st.nextId) := by
  intro st dto
  constructor
  · intro s hs
    simp [SubmitterService.createSubmission, hs]
  · intro hn
    refine ⟨?_, rfl, rfl⟩
    simp [SubmitterService.createSubmission, SubmitterService.newSubmission, hn]

/-- C1 witness: creating under key `k` in the empty state persists one
`PENDING` record and enqueues one `submit-single` job for it. -/
theorem createSubmission_spec_witness :
    SubmitterService.createSubmission ⟨[], [], 0⟩ ⟨"k", "p"⟩ =
      (Except.ok (SubmitterService.newSubmission 0 ⟨"k", "p"⟩),
       { store := [SubmitterService.newSubmission 0 ⟨"k", "p"⟩]
         queue := [JobKind.submitSingle 0]
         nextId := 1 }) := by
  have h := ((createSubmission_spec ⟨[], [], 0⟩ ⟨"k", "p"⟩).2 rfl).1
  simpa using h

/-- C2: `handleSingleSubmission` performs no terminal-status check.
Redelivering the `submit-single` job of a record that is already
`COMPLETED` re-processes it: the record is persisted as `PROCESSING` (its
status changes), the ledger is called again, and a failing attempt leaves
the terminal record overwritten. -/
theorem handleSingle_reprocesses_completed_record :
    SubmissionProcessor.handleSingleSubmission [subCompleted1] 1
        (Except.error "boom") 7 =
      ([{ subCompleted1 with status := .processing }],
        .retrySignal 2000) ∧
    SubmissionProcessor.ledgerCalled
      (SubmissionProcessor.handleSingleSubmission [subCompleted1] 1
        (Except.error "boom") 7).2 = true ∧
    subCompleted1.status = SubmissionStatus.completed ∧
    ({ subCompleted1 with status := SubmissionStatus.processing }).status ≠
      SubmissionStatus.completed := by
  decide

/-- C3: in the retry branch the handler throws before reaching the save
statement, so the incremented `retryCount`, the `errorMessage`, and the
`RETRYING` status are never persisted — the store keeps the earlier
`PROCESSING` row — even though the backoff-carrying failure is signalled. -/
theorem retryBranch_is_not_persisted :
    SubmissionProcessor.handleSingleSubmission [subPending1] 1
        (Except.error "boom") 7 =
      ([subProcessing1], .retrySignal 2000) ∧
    subProcessing1.retryCount = 0 ∧
    subProcessing1.errorMessage = none ∧
    subProcessing1.status = SubmissionStatus.processing := by
  decide

/-- C4: with every delivery failing, the persisted `retryCount` never
advances (the retry branch persists nothing), so after any number of
redeliveries — in particular after `maxRetries = 3` of them — the record
is stuck at `PROCESSING` with `retryCount = 0` and never reaches
`FAILED`. -/
theorem failing_deliveries_never_reach_failed :
    (∀ n, SubmissionProcessor.iterateFailingDeliveries [subPending1] 1 "boom" 7
        (n + 1) = [subProcessing1]) ∧
    subProcessing1.status ≠ SubmissionStatus.failed ∧
    subProcessing1.retryCount = 0 ∧
    subPending1.maxRetries = 3 := by
  refine ⟨?_, by decide, by decide, by decide⟩
  intro n
  induction n with
  | zero => decide
  | succ m ih =>
    show (SubmissionProcessor.handleSingleSubmission
        (SubmissionProcessor.iterateFailingDeliveries [subPending1] 1 "boom" 7
          (m + 1)) 1 (Except.error "boom") 7).1 = [subProcessing1]
    rw [ih]
    decide

/-- C7: the status/reference invariant is broken by re-processing a
`COMPLETED` record: a redelivered job whose attempt fails with
`retryCount` reaching `maxRetries` persists `FAILED` with the old
`transactionHash` still set — a non-null reference on a non-`Completed`
record (the intermediate `PROCESSING` save breaks it too). -/
theorem completed_reprocessing_breaks_statusHash_invariant :
    SubmissionProcessor.handleSingleSubmission [subCompletedR2] 1
        (Except.error "boom") 7 =
      ([{ subCompletedR2 with
            status := .failed
            retryCount := 3
            errorMessage := some "boom" }], .failedTerminal) ∧
    statusHashConsistent subCompletedR2 ∧
    ¬ statusHashConsistent
        { subCompletedR2 with
            status := .failed
            retryCount := 3
            errorMessage := some "boom" } := by
  decide

/-- C5 counterexample: with key `k` stored, a two-request batch whose
first request reuses `k` fails as a whole: `createBatch` throws the
conflict, the second (fresh-key) record is never created, and no
`submit-batch` job is enqueued. -/
theorem createBatch_conflict_aborts_batch :
    SubmitterService.createBatch ⟨[subPending1], [], 2⟩
        [⟨"k", "p2"⟩, ⟨"b", "pb"⟩] =
      (Except.error (SvcError.conflict
        "Submission with idempotency key k already exists"),
       ⟨[subPending1], [], 2⟩) ∧
    (∀ subs : List Submission,
      (SubmitterService.createBatch ⟨[subPending1], [], 2⟩
        [⟨"k", "p2"⟩, ⟨"b", "pb"⟩]).1 ≠ Except.ok subs) := by
  refine ⟨by decide, ?_⟩
  intro subs hs
  rw [show (SubmitterService.createBatch ⟨[subPending1], [], 2⟩
      [⟨"k", "p2"⟩, ⟨"b", "pb"⟩]).1 =
      Except.error (SvcError.conflict
        "Submission with idempotency key k already exists") from by decide] at hs
  exact Except.noConfusion hs

/-- C8 counterexample: on a store with no matching record,
`getByIdempotencyKey` returns the `findOne` result directly — `null` — and
does not fail with `NotFound` (its result type carries no error at all),
unlike `getSubmission`. -/
theorem getByIdempotencyKey_missing_returns_null :
    SubmitterService.getByIdempotencyKey ⟨[], [], 0⟩ "k" = none ∧
    SubmitterService.getSubmission ⟨[], [], 0⟩ 5 =
      Except.error (SvcError.notFound "Submission 5 not found") := by
  decide

/-- C8 (amended): `getSubmission` and `getByIdempotencyKey` are pure reads
with no retry logic; `getSubmission` fails with `NotFound` when the id
matches no record and returns the record otherwise, while
`getByIdempotencyKey` returns the lookup result itself — the record, or
null when the key matches none — without failing. -/
theorem readPaths_spec :
    ∀ (st : ServiceState) (id : Nat) (key : String),
      (findById st.store id = none →
        SubmitterService.getSubmission st id =
          Except.error (SvcError.notFound (SubmitterService.notFoundMsg id))) ∧
      (∀ s, findById st.store id = some s →
        SubmitterService.getSubmission st id = Except.ok s) ∧
      (findByIdempotencyKey st.store key = none →
        SubmitterService.getByIdempotencyKey st key = none) ∧
      (∀ s, findByIdempotencyKey st.store key = some s →
        SubmitterService.getByIdempotencyKey st key = some s) := by
  intro st id key
  refine ⟨?_, ?_, ?_, ?_⟩
  · intro h; simp [SubmitterService.getSubmission, h]
  · intro s h; simp [SubmitterService.getSubmission, h]
  · intro h; simp [SubmitterService.getByIdempotencyKey, h]
  · intro s h; simp [SubmitterService.getByIdempotencyKey, h]

/-- C8 witness: on the empty store, an unknown id fails with `NotFound`
while an unknown key reads back null. -/
theorem readPaths_spec_witness :
    SubmitterService.getSubmission ⟨[], [], 0⟩ 7 =
      Except.error (SvcError.notFound (SubmitterService.notFoundMsg 7)) ∧
    SubmitterService.getByIdempotencyKey ⟨[], [], 0⟩ "nope" = none :=
  ⟨(readPaths_spec ⟨[], [], 0⟩ 7 "nope").1 rfl,
   (readPaths_spec ⟨[], [], 0⟩ 7 "nope").2.2.1 rfl⟩

/-- C9: a failed attempt that leaves retries available signals the runtime
with the backoff `2 ^ retryCount * 1000` milliseconds, `retryCount` taken
after its increment, and this delay is strictly increasing in the retry
count. -/
theorem backoff_spec :
    (∀ (store : List Submission) (id : Nat) (msg : String) (now : Nat)
        (sub : Submission), findById store id = some sub →
      sub.retryCount + 1 < sub.maxRetries →
      (SubmissionProcessor.handleSingleSubmission store id
          (Except.error msg) now).2 =
        .retrySignal (SubmissionProcessor.backoffDelay (sub.retryCount + 1)) ∧
      SubmissionProcessor.backoffDelay (sub.retryCount + 1) =
        2 ^ (sub.retryCount + 1) * 1000) ∧
    (∀ r s : Nat, r < s →
      SubmissionProcessor.backoffDelay r < SubmissionProcessor.backoffDelay s) := by
  constructor
  · intro store id msg now sub hfind hlt
    refine ⟨?_, rfl⟩
    simp only [SubmissionProcessor.handleSingleSubmission, hfind]
    rw [if_neg]
    omega
  · intro r s hrs
    have h2 : (2 : Nat) ^ r < 2 ^ s := Nat.pow_lt_pow_right (by omega) hrs
    exact Nat.mul_lt_mul_of_pos_right h2 (by omega)

/-- C9 witness: for `subPending1` (`retryCount = 0`, `maxRetries = 3`) a
failed attempt signals a 2000 ms backoff, and the backoff at retry count 2
exceeds the one at 1. -/
theorem backoff_spec_witness :
    (SubmissionProcessor.handleSingleSubmission [subPending1] 1
        (Except.error "boom") 7).2 =
      .retrySignal (SubmissionProcessor.backoffDelay 1) ∧
    SubmissionProcessor.backoffDelay 1 = 2000 ∧
    SubmissionProcessor.backoffDelay 1 < SubmissionProcessor.backoffDelay 2 :=
  ⟨(backoff_spec.1 [subPending1] 1 "boom" 7 subPending1 rfl (by decide)).1,
   by decide,
   backoff_spec.2 1 2 (by decide)⟩

/-- C10: `listSubmissions` without a status filter returns at most 100
records (`find(take 100)`), while with a filter it returns exactly the
records of that status, with no limit. -/
theorem listSubmissions_spec :
    ∀ (st : ServiceState) (s : SubmissionStatus),
      (SubmitterService.listSubmissions st none).length ≤ 100 ∧
      (∀ sub, sub ∈ SubmitterService.listSubmissions st (some s) ↔
        sub ∈ st.store ∧ sub.status = s) := by
  intro st s
  constructor
  · simp only [SubmitterService.listSubmissions]
    exact List.length_take_le _ _
  · intro sub
    simp [SubmitterService.listSubmissions, List.mem_filter]

/-- A key is absent from a store exactly when the `findOne` lookup by that
key returns null. -/
theorem findKey_none_iff :
    ∀ (store : List Submission) (k : String),
      findByIdempotencyKey store k = none ↔ k ∉ keysOf store := by
  intro store k
  induction store with
  | nil => simp [findByIdempotencyKey, keysOf]
  | cons a rest ih =>
    by_cases h : a.idempotencyKey = k
    · simp [findByIdempotencyKey, keysOf, List.find?_cons, h]
    · simp only [findByIdempotencyKey, keysOf] at ih ⊢
      simp [List.find?_cons, h, ih, Ne.symm h]

/-- A stored key makes the lookup return some record. -/
theorem findKey_some_of_mem :
    ∀ (store : List Submission) (k : String), k ∈ keysOf store →
      ∃ s, findByIdempotencyKey store k = some s := by
  intro store k hk
  cases hfind : findByIdempotencyKey store k with
  | none => exact absurd ((findKey_none_iff store k).mp hfind) (not_not_intro hk)
  | some s => exact ⟨s, rfl⟩

/-- Appending one record appends its key. -/
theorem keysOf_append_single (store : List Submission) (s : Submission) :
    keysOf (store ++ [s]) = keysOf store ++ [s.idempotencyKey] := by
  simp [keysOf]

/-- `buildSubs` creates one record per request. -/
theorem buildSubs_length :
    ∀ (dtos : List CreateSubmissionDto) (n : Nat),
      (SubmitterService.buildSubs n dtos).length = dtos.length := by
  intro dtos
  induction dtos with
  | nil => intro n; rfl
  | cons dto rest ih => intro n; simp [SubmitterService.buildSubs, ih]

/-- Every record `buildSubs` creates is `PENDING`. -/
theorem buildSubs_pending :
    ∀ (dtos : List CreateSubmissionDto) (n : Nat),
      ∀ s ∈ SubmitterService.buildSubs n dtos, s.status = .pending := by
  intro dtos
  induction dtos with
  | nil => intro n s hs; simp [SubmitterService.buildSubs] at hs
  | cons dto rest ih =>
    intro n s hs
    simp only [SubmitterService.buildSubs, List.mem_cons] at hs
    rcases hs with h | h
    · subst h; rfl
    · exact ih (n + 1) s h

/-- The generated id of a fresh record. -/
theorem newSubmission_id (n : Nat) (dto : CreateSubmissionDto) :
    (SubmitterService.newSubmission n dto).id = n := rfl

/-- The `createBatch` loop on a conflict-free batch: every request is
created in order at consecutive ids, each with its `submit-single` job,
and the aggregate job carries all accumulated ids. -/
theorem createBatchGo_ok :
    ∀ (dtos : List CreateSubmissionDto) (st : ServiceState) (acc : List Submission),
      SubmitterService.conflictFree (keysOf st.store) dtos →
      SubmitterService.createBatchGo st dtos acc =
        (Except.ok (acc ++ SubmitterService.buildSubs st.nextId dtos),
         { store := st.store ++ SubmitterService.buildSubs st.nextId dtos
           queue := st.queue ++
             (SubmitterService.buildSubs st.nextId dtos).map
               (fun s => JobKind.submitSingle s.id) ++
             [JobKind.submitBatch
               ((acc ++ SubmitterService.buildSubs st.nextId dtos).map (fun s => s.id))]
           nextId := st.nextId + dtos.length }) := by
  intro dtos
  induction dtos with
  | nil =>
    intro st acc _
    simp [SubmitterService.createBatchGo, SubmitterService.buildSubs]
  | cons dto rest ih =>
    intro st acc h
    obtain ⟨hnotin, hrest⟩ := h
    have hfind : findByIdempotencyKey st.store dto.idempotencyKey = none :=
      (findKey_none_iff _ _).mpr hnotin
    have hrest' : SubmitterService.conflictFree
        (keysOf (st.store ++ [SubmitterService.newSubmission st.nextId dto])) rest := by
      rw [keysOf_append_single]
      exact hrest
    rw [show SubmitterService.createBatchGo st (dto :: rest) acc =
        SubmitterService.createBatchGo
          { store := st.store ++ [SubmitterService.newSubmission st.nextId dto]
            queue := st.queue ++ [JobKind.submitSingle st.nextId]
            nextId := st.nextId + 1 }
          rest (acc ++ [SubmitterService.newSubmission st.nextId dto]) from by
      simp [SubmitterService.createBatchGo, SubmitterService.createSubmission, hfind,
        newSubmission_id]]
    rw [ih _ _ hrest']
    simp [SubmitterService.buildSubs, List.append_assoc, newSubmission_id]
    omega

/-- The `createBatch` loop on a batch with a duplicate key: the first
conflicting request throws, no aggregate job is ever enqueued, and at
least one request creates no record. -/
theorem createBatchGo_err :
    ∀ (dtos : List CreateSubmissionDto) (st : ServiceState) (acc : List Submission),
      ¬ SubmitterService.conflictFree (keysOf st.store) dtos →
      ∃ msg st',
        SubmitterService.createBatchGo st dtos acc =
          (Except.error (SvcError.conflict msg), st') ∧
        st'.queue.countP isBatchJob = st.queue.countP isBatchJob ∧
        st'.store.length < st.store.length + dtos.length := by
  intro dtos
  induction dtos with
  | nil =>
    intro st acc h
    exact absurd trivial h
  | cons dto rest ih =>
    intro st acc h
    by_cases hk : dto.idempotencyKey ∈ keysOf st.store
    · obtain ⟨s, hs⟩ := findKey_some_of_mem st.store dto.idempotencyKey hk
      refine ⟨SubmitterService.conflictMsg dto.idempotencyKey, st, ?_, rfl, by simp⟩
      simp [SubmitterService.createBatchGo, SubmitterService.createSubmission, hs]
    · have hfind : findByIdempotencyKey st.store dto.idempotencyKey = none :=
        (findKey_none_iff _ _).mpr hk
      have hrest : ¬ SubmitterService.conflictFree
          (keysOf (st.store ++ [SubmitterService.newSubmission st.nextId dto])) rest := by
        intro hc
        rw [keysOf_append_single] at hc
        exact h ⟨hk, hc⟩
      obtain ⟨msg, st', heq, hcount, hlen⟩ := ih
        { store := st.store ++ [SubmitterService.newSubmission st.nextId dto]
          queue := st.queue ++ [JobKind.submitSingle st.nextId]
          nextId := st.nextId + 1 }
        (acc ++ [SubmitterService.newSubmission st.nextId dto]) hrest
      refine ⟨msg, st', ?_, ?_, ?_⟩
      · rw [show SubmitterService.createBatchGo st (dto :: rest) acc =
            SubmitterService.createBatchGo
              { store := st.store ++ [SubmitterService.newSubmission st.nextId dto]
                queue := st.queue ++ [JobKind.submitSingle st.nextId]
                nextId := st.nextId + 1 }
              rest (acc ++ [SubmitterService.newSubmission st.nextId dto]) from by
          simp [SubmitterService.createBatchGo, SubmitterService.createSubmission, hfind,
            newSubmission_id]]
        exact heq
      · rw [hcount]
        simp [List.countP_append, isBatchJob]
      · have hlen' := hlen
        simp at hlen'
        simp only [List.length_cons]
        omega

/-- C5 (amended): `createBatch` applies `createSubmission` to each request
in order.  On a conflict-free batch every request creates one `PENDING`
record (with its own `submit-single` job) and exactly one aggregate
`submit-batch` job carrying all N ids is enqueued after them.  A duplicate
key, however, is fatal: the conflict propagates out of the loop, at least
one record is not created, and no aggregate job is enqueued. -/
theorem createBatch_spec :
    ∀ (st : ServiceState) (dtos : List CreateSubmissionDto),
      (SubmitterService.conflictFree (keysOf st.store) dtos →
        SubmitterService.createBatch st dtos =
          (Except.ok (SubmitterService.buildSubs st.nextId dtos),
           { store := st.store ++ SubmitterService.buildSubs st.nextId dtos
             queue := st.queue ++
               (SubmitterService.buildSubs st.nextId dtos).map
                 (fun s => JobKind.submitSingle s.id) ++
               [JobKind.submitBatch
                 ((SubmitterService.buildSubs st.nextId dtos).map (fun s => s.id))]
             nextId := st.nextId + dtos.length }) ∧
        (SubmitterService.buildSubs st.nextId dtos).length = dtos.length ∧
        (∀ s ∈ SubmitterService.buildSubs st.nextId dtos,
          s.status = SubmissionStatus.pending)) ∧
      (¬ SubmitterService.conflictFree (keysOf st.store) dtos →
        ∃ msg st',
          SubmitterService.createBatch st dtos =
            (Except.error (SvcError.conflict msg), st') ∧
          st'.queue.countP isBatchJob = st.queue.countP isBatchJob ∧
          st'.store.length < st.store.length + dtos.length) := by
  intro st dtos
  constructor
  · intro h
    refine ⟨?_, buildSubs_length dtos st.nextId, buildSubs_pending dtos st.nextId⟩
    have hgo := createBatchGo_ok dtos st [] h
    simpa [SubmitterService.createBatch] using hgo
  · intro h
    exact createBatchGo_err dtos st [] h

/-- C5 witness: a one-request batch in the empty state creates one
`PENDING` record, its `submit-single` job, and one `submit-batch` job. -/
theorem createBatch_spec_witness :
    SubmitterService.createBatch ⟨[], [], 0⟩ [⟨"a", "p"⟩] =
      (Except.ok [SubmitterService.newSubmission 0 ⟨"a", "p"⟩],
       { store := [SubmitterService.newSubmission 0 ⟨"a", "p"⟩]
         queue := [JobKind.submitSingle 0, JobKind.submitBatch [0]]
         nextId := 1 }) := by
  have h := ((createBatch_spec ⟨[], [], 0⟩ [⟨"a", "p"⟩]).1
    (by simp [SubmitterService.conflictFree, keysOf])).1
  simpa [SubmitterService.buildSubs, newSubmission_id] using h

/-- Looking up ids that all differ from the head record's id skips the
head. -/
theorem findByIds_cons_of_ne :
    ∀ (ids : List Nat) (a : Submission) (rest : List Submission),
      (∀ i ∈ ids, i ≠ a.id) →
      SubmissionProcessor.findByIds (a :: rest) ids =
        SubmissionProcessor.findByIds rest ids := by
  intro ids a rest h
  induction ids with
  | nil => rfl
  | cons i more ih =>
    have hia : i ≠ a.id := h i (List.mem_cons_self i more)
    have hmore : ∀ j ∈ more, j ≠ a.id := fun j hj => h j (List.mem_cons_of_mem i hj)
    simp only [SubmissionProcessor.findByIds, List.filterMap_cons] at ih ⊢
    rw [show findById (a :: rest) i = findById rest i from by
      simp [findById, List.find?_cons, Ne.symm hia]]
    rw [ih hmore]

/-- With pairwise-distinct ids, `findByIds` over a store's own id list
returns the store itself, in order. -/
theorem findByIds_self :
    ∀ (subs : List Submission), (subs.map Submission.id).Nodup →
      SubmissionProcessor.findByIds subs (subs.map Submission.id) = subs := by
  intro subs hnd
  induction subs with
  | nil => rfl
  | cons a rest ih =>
    simp only [List.map_cons, List.nodup_cons] at hnd
    obtain ⟨hna, hrest⟩ := hnd
    simp only [SubmissionProcessor.findByIds, List.map_cons, List.filterMap_cons]
    rw [show findById (a :: rest) a.id = some a from by simp [findById, List.find?_cons]]
    have hne : ∀ i ∈ rest.map Submission.id, i ≠ a.id := by
      intro i hi hcontra
      exact hna (hcontra ▸ hi)
    have := findByIds_cons_of_ne (rest.map Submission.id) a rest hne
    simp only [SubmissionProcessor.findByIds] at this
    rw [this]
    have := ih hrest
    simp only [SubmissionProcessor.findByIds] at this
    rw [this]

/-- `submitBatch` returns one outcome per payload, in order. -/
theorem submitBatch_eq_map :
    ∀ (payloads : List String) (ledger : String → Except String String),
      StellarService.submitBatch payloads ledger =
        payloads.map (fun p => StellarService.ledgerOutcome (ledger p)) := by
  intro payloads ledger
  induction payloads with
  | nil => rfl
  | cons p rest ih => simp [StellarService.submitBatch, ih]

/-- The batch update keeps the record's id. -/
theorem batchUpdateOne_id (sub : Submission) (h : Option String) (now : Nat) :
    (SubmissionProcessor.batchUpdateOne sub h now).id = sub.id := by
  cases h with
  | none => rfl
  | some hash =>
    by_cases he : hash = "" <;> simp [SubmissionProcessor.batchUpdateOne, he]

/-- Saving a record whose id matches no stored row leaves the store
unchanged. -/
theorem updateStore_not_mem :
    ∀ (store : List Submission) (s : Submission),
      (∀ t ∈ store, t.id ≠ s.id) → updateStore store s = store := by
  intro store s h
  induction store with
  | nil => rfl
  | cons a rest ih =>
    simp only [updateStore, List.map_cons] at ih ⊢
    rw [if_neg (h a (List.mem_cons_self a rest)),
      ih (fun t ht => h t (List.mem_cons_of_mem a ht))]

/-- Saving a record with a different id than the head leaves the head in
place. -/
theorem updateStore_cons_ne (x : Submission) (store : List Submission)
    (s : Submission) (h : x.id ≠ s.id) :
    updateStore (x :: store) s = x :: updateStore store s := by
  simp only [updateStore, List.map_cons, if_neg h]

/-- A fold of saves whose records' ids all differ from the head id leaves
the head in place. -/
theorem foldl_update_cons (now : Nat) :
    ∀ (pairs : List (Submission × Option String)) (x : Submission)
      (store : List Submission),
      (∀ p ∈ pairs, p.1.id ≠ x.id) →
      pairs.foldl
        (fun st p => updateStore st (SubmissionProcessor.batchUpdateOne p.1 p.2 now))
        (x :: store) =
      x :: pairs.foldl
        (fun st p => updateStore st (SubmissionProcessor.batchUpdateOne p.1 p.2 now))
        store := by
  intro pairs
  induction pairs with
  | nil => intro x store _; rfl
  | cons p more ih =>
    intro x store h
    simp only [List.foldl_cons]
    rw [updateStore_cons_ne x store _ (by
      rw [batchUpdateOne_id]
      exact Ne.symm (h p (List.mem_cons_self p more)))]
    exact ih x _ (fun q hq => h q (List.mem_cons_of_mem p hq))

/-- The zip-fold of the batch update loop, over a store that is exactly
the loaded records with pairwise-distinct ids, saves each record's update
in place. -/
theorem foldl_update_zip (now : Nat) :
    ∀ (subs : List Submission) (hs : List (Option String)),
      (subs.map Submission.id).Nodup → hs.length = subs.length →
      (subs.zip hs).foldl
        (fun st p => updateStore st (SubmissionProcessor.batchUpdateOne p.1 p.2 now))
        subs =
      List.zipWith (fun s h => SubmissionProcessor.batchUpdateOne s h now) subs hs := by
  intro subs
  induction subs with
  | nil => intro hs _ _; simp
  | cons a rest ih =>
    intro hs hnd hlen
    cases hs with
    | nil => simp at hlen
    | cons h hrest =>
      simp only [List.map_cons, List.nodup_cons] at hnd
      obtain ⟨hna, hndrest⟩ := hnd
      simp only [List.zip_cons_cons, List.foldl_cons, List.zipWith_cons_cons]
      have hupd : updateStore (a :: rest) (SubmissionProcessor.batchUpdateOne a h now) =
          SubmissionProcessor.batchUpdateOne a h now :: rest := by
        rw [show updateStore (a :: rest) (SubmissionProcessor.batchUpdateOne a h now) =
            (if a.id = (SubmissionProcessor.batchUpdateOne a h now).id then
              SubmissionProcessor.batchUpdateOne a h now else a) ::
            updateStore rest (SubmissionProcessor.batchUpdateOne a h now) from rfl]
        rw [if_pos (batchUpdateOne_id a h now).symm]
        rw [updateStore_not_mem rest _ (by
          rw [batchUpdateOne_id]
          intro t ht hc
          exact hna (hc ▸ List.mem_map_of_mem Submission.id ht))]
      rw [hupd]
      rw [foldl_update_cons now (rest.zip hrest) _ rest (by
        rw [batchUpdateOne_id]
        intro p hp hc
        have hmem := List.of_mem_zip hp
        exact hna (hc ▸ List.mem_map_of_mem Submission.id hmem.1))]
      rw [ih hrest hndrest (by simpa using hlen)]

/-- `handleBatchSubmission`, run on the batch's own records (distinct
ids), maps each record to its positional outcome's update. -/
theorem handleBatch_eq_map :
    ∀ (subs : List Submission) (ledger : String → Except String String) (now : Nat),
      (subs.map Submission.id).Nodup →
      SubmissionProcessor.handleBatchSubmission subs (subs.map Submission.id)
          ledger now =
        subs.map (fun s =>
          SubmissionProcessor.batchUpdateOne s
            (StellarService.ledgerOutcome (ledger s.payload)) now) := by
  intro subs ledger now hnd
  simp only [SubmissionProcessor.handleBatchSubmission]
  rw [findByIds_self subs hnd, submitBatch_eq_map]
  rw [List.map_map]
  rw [foldl_update_zip now subs _ hnd (by simp)]
  rw [List.zipWith_map_right]
  exact List.zipWith_same _ _

/-- C6: for a batch aggregate job over records with distinct ids, the
ledger batch call yields one outcome per position (the result store has
one row per record, in order); a record whose position carries a
(non-empty) reference is persisted `COMPLETED` with exactly that
reference; a record whose position carries the absent marker is persisted
`FAILED` with the batch error message; no record's `retryCount` changes
and none is ever put into `RETRYING` — batch items get no retry. -/
theorem handleBatch_positional_outcomes :
    ∀ (subs : List Submission) (ledger : String → Except String String) (now : Nat),
      (subs.map Submission.id).Nodup →
      (∀ p h, ledger p = Except.ok h → h ≠ "") →
      (SubmissionProcessor.batchRun subs ledger now).length = subs.length ∧
      ∀ (i : Nat) (hi : i < subs.length)
        (hi' : i < (SubmissionProcessor.batchRun subs ledger now).length),
        (∀ h, ledger (subs.get ⟨i, hi⟩).payload = Except.ok h →
          ((SubmissionProcessor.batchRun subs ledger now).get ⟨i, hi'⟩).status =
            SubmissionStatus.completed ∧
          ((SubmissionProcessor.batchRun subs ledger now).get ⟨i, hi'⟩).transactionHash =
            some h) ∧
        (∀ e, ledger (subs.get ⟨i, hi⟩).payload = Except.error e →
          ((SubmissionProcessor.batchRun subs ledger now).get ⟨i, hi'⟩).status =
            SubmissionStatus.failed ∧
          ((SubmissionProcessor.batchRun subs ledger now).get ⟨i, hi'⟩).transactionHash =
            (subs.get ⟨i, hi⟩).transactionHash ∧
          ((SubmissionProcessor.batchRun subs ledger now).get ⟨i, hi'⟩).errorMessage =
            some "Batch submission failed") ∧
        ((SubmissionProcessor.batchRun subs ledger now).get ⟨i, hi'⟩).retryCount =
          (subs.get ⟨i, hi⟩).retryCount ∧
        ((SubmissionProcessor.batchRun subs ledger now).get ⟨i, hi'⟩).status ≠
          SubmissionStatus.retrying := by
  intro subs ledger now hnd hne
  have hmap : SubmissionProcessor.batchRun subs ledger now =
      subs.map (fun s =>
        SubmissionProcessor.batchUpdateOne s
          (StellarService.ledgerOutcome (ledger s.payload)) now) :=
    handleBatch_eq_map subs ledger now hnd
  refine ⟨by rw [hmap]; simp, ?_⟩
  intro i hi hi'
  have hget : (SubmissionProcessor.batchRun subs ledger now).get ⟨i, hi'⟩ =
      SubmissionProcessor.batchUpdateOne (subs.get ⟨i, hi⟩)
        (StellarService.ledgerOutcome (ledger (subs.get ⟨i, hi⟩).payload)) now := by
    simp only [List.get_eq_getElem, hmap, List.getElem_map]
  rw [hget]
  cases hl : ledger (subs.get ⟨i, hi⟩).payload with
  | ok h =>
    have hne' : h ≠ "" := hne _ h hl
    refine ⟨?_, ?_, ?_, ?_⟩
    · intro h' hok
      cases hok
      simp [SubmissionProcessor.batchUpdateOne, StellarService.ledgerOutcome, hne']
    · intro e herr
      exact Except.noConfusion herr
    · simp [SubmissionProcessor.batchUpdateOne, StellarService.ledgerOutcome, hne']
    · simp [SubmissionProcessor.batchUpdateOne, StellarService.ledgerOutcome, hne']
  | error e =>
    refine ⟨?_, ?_, ?_, ?_⟩
    · intro h' hok
      exact Except.noConfusion hok
    · intro e' _
      simp [SubmissionProcessor.batchUpdateOne, StellarService.ledgerOutcome]
    · simp [SubmissionProcessor.batchUpdateOne, StellarService.ledgerOutcome]
    · simp [SubmissionProcessor.batchUpdateOne, StellarService.ledgerOutcome]

/-- C6 witness: the three-record batch under `ledger3` ends with records 1
and 3 `COMPLETED` carrying the distinct references `h1` and `h3`, record 2
`FAILED` with an unchanged retry count. -/
theorem handleBatch_positional_outcomes_witness :
    (SubmissionProcessor.batchRun [sBatchA, sBatchB, sBatchC] ledger3 9).length = 3 ∧
    ((SubmissionProcessor.batchRun [sBatchA, sBatchB, sBatchC] ledger3 9).get
        ⟨0, by decide⟩).status = SubmissionStatus.completed ∧
    ((SubmissionProcessor.batchRun [sBatchA, sBatchB, sBatchC] ledger3 9).get
        ⟨0, by decide⟩).transactionHash = some "h1" ∧
    ((SubmissionProcessor.batchRun [sBatchA, sBatchB, sBatchC] ledger3 9).get
        ⟨1, by decide⟩).status = SubmissionStatus.failed ∧
    ((SubmissionProcessor.batchRun [sBatchA, sBatchB, sBatchC] ledger3 9).get
        ⟨1, by decide⟩).retryCount = sBatchB.retryCount ∧
    ((SubmissionProcessor.batchRun [sBatchA, sBatchB, sBatchC] ledger3 9).get
        ⟨2, by decide⟩).status = SubmissionStatus.completed ∧
    ((SubmissionProcessor.batchRun [sBatchA, sBatchB, sBatchC] ledger3 9).get
        ⟨2, by decide⟩).transactionHash = some "h3" ∧
    ("h1" : String) ≠ "h3" := by
  obtain ⟨hlen, hpos⟩ := handleBatch_positional_outcomes [sBatchA, sBatchB, sBatchC]
    ledger3 9 (by decide)
    (by
      intro p h heq
      simp only [ledger3] at heq
      split_ifs at heq <;>
        first
          | exact Except.noConfusion heq
          | (cases heq; decide))
  have h0 := hpos 0 (by decide) (by rw [hlen]; decide)
  have h1 := hpos 1 (by decide) (by rw [hlen]; decide)
  have h2 := hpos 2 (by decide) (by rw [hlen]; decide)
  obtain ⟨hc0, ht0⟩ := h0.1 "h1" (by decide)
  obtain ⟨hc1, -, -⟩ := h1.2.1 "item failed" (by decide)
  have hr1 := h1.2.2.1
  obtain ⟨hc2, ht2⟩ := h2.1 "h3" (by decide)
  exact ⟨hlen, hc0, ht0, hc1, hr1, hc2, ht2, by decide⟩
